import Mathlib

/-!
Verification of the LLM-compliance scoring subsystem of the repository:
`InstructionComplianceMetric.measure`, `GuidelinesComplianceMetric.measureAll`
/ `measure`, and the batch aggregation of `reply-eval-rokujou.ts`
(`evaluateFile`).

The model call (`this.model.doGenerate(options)`) is an opaque external
collaborator: a call either rejects with an error message or resolves with an
optional text payload.  The subsequent `JSON.parse` of that payload is
embedded at the level of its outcome: either a thrown parse error or a JSON
value.  JavaScript numbers produced by `JSON.parse` are idealized as exact
rationals extended with the two infinities (`JSON.parse` can return
`Infinity`/`-Infinity` from overflowing numeric literals such as `1e999`, but
it can never return `NaN`, since `NaN` is not JSON-expressible); numbers
produced by later arithmetic additionally include `NaN`.
-/

namespace Mastra

/-- A JavaScript number as produced by `JSON.parse`: a finite value
(idealized as an exact rational) or one of the two infinities.  `NaN` is
excluded because no JSON text parses to `NaN`. -/
inductive JNum where
  | fin (q : ℚ)
  | inf
  | negInf
deriving DecidableEq, Repr

/-- A general JavaScript number (result of arithmetic), including `NaN`. -/
inductive JsNum where
  | fin (q : ℚ)
  | inf
  | negInf
  | nan
deriving DecidableEq, Repr

/-- Inclusion of parse-produced numbers into general JS numbers. -/
def JNum.toJs : JNum → JsNum
  | .fin q => .fin q
  | .inf => .inf
  | .negInf => .negInf

/-- JavaScript `<` on parse-produced numbers (no `NaN` case needed). -/
def JNum.ltb : JNum → JNum → Bool
  | .fin a, .fin b => a < b
  | .fin _, .inf => true
  | .fin _, .negInf => false
  | .inf, _ => false
  | .negInf, .negInf => false
  | .negInf, _ => true

/-- JavaScript division by 10 on a general JS number (`x / 10`). -/
def JsNum.div10 : JsNum → JsNum
  | .fin q => .fin (q / 10)
  | .inf => .inf
  | .negInf => .negInf
  | .nan => .nan

/-- A JSON value as returned by `JSON.parse` (no `undefined`, no `NaN`). -/
inductive JVal where
  | null
  | bool (b : Bool)
  | num (n : JNum)
  | str (s : String)
  | arr (elems : List JVal)
  | obj (fields : List (String × JVal))
deriving Repr

/-- Last-wins field lookup, matching `JSON.parse`'s treatment of duplicate
object keys (the later occurrence overwrites the earlier one). -/
def lookupField (fields : List (String × JVal)) (k : String) : Option JVal :=
  ((fields.filter (fun p => p.1 == k)).getLast?).map (fun p => p.2)

/-- JavaScript property access `v[k]` on a `JSON.parse` result:
accessing a property of `null` throws a `TypeError`; on objects it yields the
field value or `undefined` (modelled as `none`); on the remaining primitive
and array values our field names resolve to `undefined`. -/
def getField : JVal → String → Except String (Option JVal)
  | .null, _ => .error "TypeError"
  | .obj fs, k => .ok (lookupField fs k)
  | _, _ => .ok none

/-- `typeof r === 'string'` on a JSON value. -/
def isStrVal : JVal → Bool
  | .str _ => true
  | _ => false

/-- Extract the string payload (only used on values passing `isStrVal`). -/
def strOf : JVal → String
  | .str s => s
  | _ => ""

/-- Outcome of one `this.model.doGenerate(options)` call: either the promise
rejects with an error message, or it resolves with an optional text payload
`res.text`, whose `JSON.parse` outcome (a thrown parse error or a JSON value)
is carried alongside. -/
inductive ModelOutcome where
  | raise (msg : String)
  | resolve (text : Option String) (parsed : Except String JVal)
deriving Repr

/-- The error message thrown by `InstructionComplianceMetric.measure`'s
manual schema check. -/
def schemaErr : String := "Response does not conform to schema"

/-- The schema check of `InstructionComplianceMetric.measure` (source lines
86-95): `JSON.parse` result `parsed` must have `typeof parsed.score ===
'number'`, `0 <= parsed.score <= 10`, `Array.isArray(parsed.reasons)`, and
every element of `parsed.reasons` a string; otherwise
`Error('Response does not conform to schema')` is thrown.  Property access on
a `null` parse result throws a `TypeError` instead; both are caught by the
surrounding `try`. -/
def checkSingle (v : JVal) : Except String (ℚ × List String) :=
  match getField v "score" with
  | .error e => .error e
  | .ok sc =>
    match sc with
    | some (.num n) =>
      if n.ltb (.fin 0) || (JNum.fin 10).ltb n then
        .error schemaErr
      else
        match n with
        | .fin q =>
          match getField v "reasons" with
          | .error e => .error e
          | .ok rr =>
            match rr with
            | some (.arr xs) =>
              if xs.all isStrVal then .ok (q, xs.map strOf) else .error schemaErr
            | _ => .error schemaErr
        | .inf => .error schemaErr
        | .negInf => .error schemaErr
    | _ => .error schemaErr

/-- The `MetricResult` of `InstructionComplianceMetric.measure`: a score and
the `info` object, which carries either `reasons` (success) or
`raw`/`error` (fallback). -/
structure ScoreResult where
  score : JsNum
  reasons : List String
  raw : Option String
  errMsg : Option String
deriving DecidableEq, Repr

/-- `InstructionComplianceMetric.measure` (source lines 63-111).  The
`doGenerate` call sits outside the `try`, so a rejecting model call
propagates (`Except.error`).  Once the call resolves, `JSON.parse(res.text ??
'')` plus the schema check run inside the `try`: any throw is caught and
turned into the fallback `{score: 0, info: {raw: text, error: err.message}}`;
on success the raw 0-10 score is divided by 10. -/
def measureI : ModelOutcome → Except String ScoreResult
  | .raise msg => .error msg
  | .resolve t p =>
    let text := t.getD ""
    match p with
    | .error e => .ok ⟨.fin 0, [], some text, some e⟩
    | .ok v =>
      match checkSingle v with
      | .error e => .ok ⟨.fin 0, [], some text, some e⟩
      | .ok (q, rs) => .ok ⟨.fin (q / 10), rs, none, none⟩

/-- A guideline: a titled natural-language instruction
(`GuidelinesComplianceMetric.ts` line 6). -/
structure Guideline where
  title : String
  instruction : String
deriving DecidableEq, Repr

/-- The object literal `{title, score: s, reasons: [reason]}` pushed (or
mapped) by `GuidelinesComplianceMetric.measureAll` on its fallback and
reconciliation paths. -/
def mkGuidelineResult (title : String) (score : ℚ) (reason : String) : JVal :=
  .obj [("title", .str title), ("score", .num (.fin score)), ("reasons", .arr [.str reason])]

/-- The `MetricResult` of `measureAll`: the outer `score` and the
`info.results` array (the only `info` content any path produces). -/
structure MultiMetricResult where
  score : JsNum
  results : List JVal
deriving Repr

/-- `guidelines.map(g => ({title: g.title, score: 5, reasons: [reason]}))`,
the shape shared by the three fallback branches of `measureAll`. -/
def fallbackResults (gs : List Guideline) (reason : String) : List JVal :=
  gs.map (fun g => mkGuidelineResult g.title 5 reason)

/-- `r.title` for one element of `parsed.results` (throws a `TypeError` when
the element is `null`). -/
def elemTitle (v : JVal) : Except String (Option JVal) :=
  getField v "title"

/-- JavaScript `existingTitles.has(g.title)` where `existingTitles` is the
`Set` of the elements' `title` values: `Set.has` uses SameValueZero, so the
string `g.title` matches exactly the title values that are that same
string. -/
def titleMatches (t : Option JVal) (s : String) : Bool :=
  match t with
  | some (.str s2) => s2 == s
  | _ => false

/-- The reconciliation block of `measureAll` (source lines 149-164), run only
when `parsed.results.length < guidelines.length`: collect the `title` of
every returned element (a `TypeError` on a malformed element propagates to
the enclosing `catch`), then append, in guideline order, a score-5 entry for
every requested guideline whose title is absent. -/
def reconcile (gs : List Guideline) (rs : List JVal) : Except String (List JVal) := do
  let titles ← rs.mapM elemTitle
  pure (rs ++ (gs.filter
      (fun g => !(titles.any (fun t => titleMatches t g.title)))).map
    (fun g => mkGuidelineResult g.title 5 "This guideline was missing from LLM response"))

/-- `GuidelinesComplianceMetric.measureAll` (source lines 91-195).  The whole
body after prompt building sits in a `try` whose `catch` substitutes score 5
for every guideline (so `measureAll` itself always resolves; in this
embedding it is a total function):
* the model call rejecting hits the outer `catch`
  (reason `'LLM call failed: ' + (err.message || 'Unknown error')`);
* a falsy `res.text` (absent or empty string) returns score 5 per guideline
  (`'LLM returned empty response'`) without parsing;
* a `JSON.parse` throw — or any `TypeError` thrown later inside the inner
  `try`, e.g. while reading `parsed.results` of a `null` parse result or the
  `title` of a `null` element — hits the inner `catch`
  (`'Failed to parse LLM response'`);
* a missing / non-array / empty `results` field returns score 5 per
  guideline (`'Parsed response had empty results'`);
* `results.length < guidelines.length` triggers reconciliation;
* otherwise the parsed results pass through verbatim.
Every path returns outer `score: NaN`. -/
def measureAll (gs : List Guideline) (outcome : ModelOutcome) : MultiMetricResult :=
  match outcome with
  | .raise msg =>
    ⟨.nan, fallbackResults gs ("LLM call failed: " ++ (if msg = "" then "Unknown error" else msg))⟩
  | .resolve t p =>
    if t.getD "" = "" then
      ⟨.nan, fallbackResults gs "LLM returned empty response"⟩
    else
      match p with
      | .error _ => ⟨.nan, fallbackResults gs "Failed to parse LLM response"⟩
      | .ok v =>
        match (do
            let rsField ← getField v "results"
            match rsField with
            | some (.arr rs) =>
              if rs.isEmpty then
                pure (fallbackResults gs "Parsed response had empty results")
              else if rs.length < gs.length then
                reconcile gs rs
              else
                pure rs
            | _ => pure (fallbackResults gs "Parsed response had empty results")
          : Except String (List JVal)) with
        | .ok rs => ⟨.nan, rs⟩
        | .error _ => ⟨.nan, fallbackResults gs "Failed to parse LLM response"⟩

/-- JavaScript `ToNumber` on the value of a possibly-absent field, as used by
`first.score / 10` in `GuidelinesComplianceMetric.measure`.  Exact for
`undefined` (`NaN`), `null` (`0`), booleans, numbers, and plain objects
(`NaN`); JavaScript coerces strings and arrays through string conversion
(numeric strings become numbers), which is modelled as `NaN` — exact for
every non-numeric string and irrelevant to the constructed fallback entries,
whose `score` is always the number `5`. -/
def toNumber : Option JVal → JsNum
  | none => .nan
  | some .null => .fin 0
  | some (.bool b) => .fin (if b then 1 else 0)
  | some (.num n) => n.toJs
  | some (.str _) => .nan
  | some (.arr _) => .nan
  | some (.obj _) => .nan

/-- The `MetricResult` of `GuidelinesComplianceMetric.measure`: a score plus
the `info` object, which is `{reasons: first.reasons}` when a first result
exists (`reasonsField` is that `reasons` value, `none` when the field is
absent) and `{}` otherwise. -/
structure SingleFromMulti where
  score : JsNum
  reasonsField : Option JVal
deriving Repr

/-- `GuidelinesComplianceMetric.measure` (source lines 45-54): wrap the
instruction as one guideline, run `measureAll`, and if a first result exists
return `{score: first.score / 10, info: {reasons: first.reasons}}` (property
access on a `null` first element throws and is not caught here), else
`{score: 0, info: {}}`. -/
def measureG (instruction : String) (outcome : ModelOutcome) : Except String SingleFromMulti :=
  let multi := measureAll [⟨instruction, instruction⟩] outcome
  match multi.results.head? with
  | some f => do
    let sc ← getField f "score"
    let rf ← getField f "reasons"
    pure ⟨(toNumber sc).div10, rf⟩
  | none => pure ⟨.fin 0, none⟩

/-- One row task of `evaluateFile` (reply-eval-rokujou.ts lines 106-116):
`try { return (await llmMetric.measure(...)).score } catch { return null }`. -/
def evalRow (outcome : ModelOutcome) : Option JsNum :=
  match measureI outcome with
  | .ok r => some r.score
  | .error _ => none

/-- The score collection of one `(column, guideline)` cell of `evaluateFile`
(lines 106-120): run the row tasks and drop the `null`s
(`rawScores.filter((s) => s !== null)`). -/
def collectScores (outs : List ModelOutcome) : List JsNum :=
  outs.filterMap evalRow

/-- `average` of one cell (reply-eval-rokujou.ts lines 129-131):
`count > 0 ? sum / count : NaN`, with `sum` the `reduce((a, b) => a + b, 0)`.
`none` models `NaN`. -/
def averageOf (scores : List ℚ) : Option ℚ :=
  if scores.length > 0 then
    some (scores.foldl (fun a b => a + b) 0 / scores.length)
  else none

/-- `variance` of one cell (lines 132-134):
`count > 0 ? scores.reduce((a, b) => a + Math.pow(b - average, 2), 0) / count
: NaN` — the population formula, using the just-computed average. -/
def varianceOf (scores : List ℚ) : Option ℚ :=
  match averageOf scores with
  | some m => some (scores.foldl (fun a b => a + (b - m) ^ 2) 0 / scores.length)
  | none => none

/-- `stddev = Math.sqrt(variance)` (line 135); `Math.sqrt(NaN)` is `NaN`,
so the `NaN` sentinel (`none`) passes through. -/
noncomputable def stddevOf (scores : List ℚ) : Option ℝ :=
  (varianceOf scores).map (fun v : ℚ => Real.sqrt (v : ℝ))

/-- The `title` value of a returned result entry, viewed as an optional
string (used to state title-occurrence properties). -/
def titleOf : JVal → Option String
  | .obj fs =>
    match lookupField fs "title" with
    | some (.str s) => some s
    | _ => none
  | _ => none

/-- A well-shaped element of the model's `results` array, mirroring the
TypeScript interface `GuidelineResult` (title, 0-10 score, reasons). -/
structure GuidelineResult where
  title : String
  score : ℚ
  reasons : List String
deriving DecidableEq, Repr

/-- The JSON object a well-shaped `GuidelineResult` denotes. -/
def GuidelineResult.toJVal (r : GuidelineResult) : JVal :=
  .obj [("title", .str r.title), ("score", .num (.fin r.score)),
        ("reasons", .arr (r.reasons.map .str))]

section Helpers

/-- `reduce((a, b) => a + f(b), init)` is `init` plus the sum of the images. -/
lemma foldl_add_map (f : ℚ → ℚ) (l : List ℚ) (a : ℚ) :
    l.foldl (fun x b => x + f b) a = a + (l.map f).sum := by
  induction l generalizing a with
  | nil => simp
  | cons b rest ih =>
    simp only [List.foldl_cons, List.map_cons, List.sum_cons, ih]
    ring

/-- On every path, `measureAll` returns outer `score: NaN`. -/
lemma measureAll_score_nan (gs : List Guideline) (o : ModelOutcome) :
    (measureAll gs o).score = .nan := by
  unfold measureAll
  rcases o with msg | ⟨t, p⟩
  · rfl
  · dsimp only
    split
    · rfl
    · rcases p with e | v
      · rfl
      · dsimp only
        split <;> rfl

/-- Computation lemma: with a truthy text, a parsed object whose `results`
field is an array at least as long as the guideline list, `measureAll`
returns the parsed results verbatim. -/
lemma measureAll_verbatim (gs : List Guideline) (t : String) (v : JVal) (rs : List JVal)
    (ht : t ≠ "") (hf : getField v "results" = .ok (some (.arr rs)))
    (hlen : gs.length ≤ rs.length) :
    measureAll gs (.resolve (some t) (.ok v)) = ⟨.nan, rs⟩ := by
  unfold measureAll
  simp only [Option.getD_some, if_neg ht, hf]
  by_cases hrs : rs = []
  · subst hrs
    have hg : gs = [] := by
      cases gs with
      | nil => rfl
      | cons a l => simp at hlen
    subst hg
    rfl
  · have hne : ¬ rs.isEmpty = true := by
      cases rs with
      | nil => exact absurd rfl hrs
      | cons a l => simp
    have hnlt : ¬ rs.length < gs.length := not_lt.2 hlen
    rw [show (do
        let rsField ← (Except.ok (some (JVal.arr rs)) : Except String (Option JVal))
        match rsField with
        | some (.arr rs) =>
          if rs.isEmpty then
            pure (fallbackResults gs "Parsed response had empty results")
          else if rs.length < gs.length then
            reconcile gs rs
          else
            pure rs
        | _ => pure (fallbackResults gs "Parsed response had empty results")
        : Except String (List JVal)) = .ok rs from by
      show (if rs.isEmpty then
          pure (fallbackResults gs "Parsed response had empty results")
        else if rs.length < gs.length then
          reconcile gs rs
        else
          pure rs : Except String (List JVal)) = .ok rs
      rw [if_neg hne, if_neg hnlt]
      rfl]

/-- Computation lemma: with a truthy text, a parsed object whose `results`
field is a non-empty array shorter than the guideline list, and every
element's `title` readable, `measureAll` returns the parsed results followed
by a synthesized score-5 entry for every guideline whose title is absent. -/
lemma measureAll_reconciled (gs : List Guideline) (t : String) (v : JVal) (rs : List JVal)
    (ts : List (Option JVal))
    (ht : t ≠ "") (hf : getField v "results" = .ok (some (.arr rs)))
    (hne : rs ≠ []) (hlt : rs.length < gs.length)
    (hts : rs.mapM elemTitle = .ok ts) :
    measureAll gs (.resolve (some t) (.ok v)) =
      ⟨.nan, rs ++ (gs.filter
          (fun g => !(ts.any (fun x => titleMatches x g.title)))).map
        (fun g => mkGuidelineResult g.title 5 "This guideline was missing from LLM response")⟩ := by
  unfold measureAll
  simp only [Option.getD_some, if_neg ht, hf]
  have hisEmpty : ¬ rs.isEmpty = true := by
    cases rs with
    | nil => exact absurd rfl hne
    | cons a l => simp
  rw [show (do
      let rsField ← (Except.ok (some (JVal.arr rs)) : Except String (Option JVal))
      match rsField with
      | some (.arr rs) =>
        if rs.isEmpty then
          pure (fallbackResults gs "Parsed response had empty results")
        else if rs.length < gs.length then
          reconcile gs rs
        else
          pure rs
      | _ => pure (fallbackResults gs "Parsed response had empty results")
      : Except String (List JVal)) =
    .ok (rs ++ (gs.filter
        (fun g => !(ts.any (fun x => titleMatches x g.title)))).map
      (fun g => mkGuidelineResult g.title 5 "This guideline was missing from LLM response"))
    from by
    show (if rs.isEmpty then
        pure (fallbackResults gs "Parsed response had empty results")
      else if rs.length < gs.length then
        reconcile gs rs
      else
        pure rs : Except String (List JVal)) = .ok _
    rw [if_neg hisEmpty, if_pos hlt]
    unfold reconcile
    rw [hts]
    rfl]

/-- Reading the titles of well-shaped result entries always succeeds and
yields the entries' title strings. -/
lemma mapM_elemTitle_shaped (entries : List GuidelineResult) :
    (entries.map GuidelineResult.toJVal).mapM elemTitle =
      .ok (entries.map (fun r => some (.str r.title))) := by
  induction entries with
  | nil => rfl
  | cons r rest ih =>
    simp only [List.map_cons, List.mapM_cons, ih]
    rfl

/-- For a guideline-title list and a nodup subset of it, the number of titles
inside the subset is the subset's size. -/
lemma countP_mem_nodup (T S : List String) (hT : T.Nodup) (hS : S.Nodup)
    (hsub : ∀ s ∈ S, s ∈ T) :
    T.countP (fun x => decide (x ∈ S)) = S.length := by
  rw [List.countP_eq_length_filter]
  have hfn : (T.filter (fun x => decide (x ∈ S))).Nodup := hT.filter _
  have hperm : List.Perm (T.filter (fun x => decide (x ∈ S))) S := by
    rw [List.perm_ext_iff_of_nodup hfn hS]
    intro a
    simp only [List.mem_filter, decide_eq_true_eq]
    exact ⟨fun h => h.2, fun h => ⟨hsub a h, h⟩⟩
  exact hperm.length_eq

/-- `Bool` bridge: a `beq`-any over strings is membership. -/
lemma any_beq_eq_decide_mem (S : List String) (x : String) :
    (S.any fun s => s == x) = decide (x ∈ S) := by
  by_cases h : x ∈ S
  · simp [h, List.any_beq']
  · simp [h]
    intro s hs hsx
    exact absurd (hsx ▸ hs) h

/-- The number of guidelines whose title is missing from the nodup title
subset `S` is the difference of the lengths. -/
lemma missing_filter_length (gs : List Guideline) (S : List String)
    (hg : (gs.map Guideline.title).Nodup) (hS : S.Nodup)
    (hsub : ∀ s ∈ S, s ∈ gs.map Guideline.title) :
    (gs.filter (fun g => !(S.any (fun s => s == g.title)))).length =
      gs.length - S.length := by
  have hfun : (fun g : Guideline => !(S.any (fun s => s == g.title))) =
      (fun g : Guideline => !(decide (g.title ∈ S))) := by
    funext g
    rw [any_beq_eq_decide_mem]
  rw [hfun, ← List.countP_eq_length_filter]
  have hin : gs.countP (fun g => decide (g.title ∈ S)) = S.length := by
    have hmap := List.countP_map (fun x : String => decide (x ∈ S)) Guideline.title gs
    have := countP_mem_nodup (gs.map Guideline.title) S hg hS hsub
    rw [hmap] at this
    exact this
  have htot := @List.length_eq_countP_add_countP Guideline
    (fun g => decide (g.title ∈ S)) gs
  have hnot : gs.countP (fun g => ¬(decide (g.title ∈ S) = true)) =
      gs.countP (fun g => !(decide (g.title ∈ S))) := by
    apply List.countP_congr
    intro g _
    by_cases h : g.title ∈ S <;> simp [h]
  rw [hnot, hin] at htot
  omega

/-- In a nodup title list, each title occurs once (or not at all). -/
lemma count_title_nodup (T : List String) (hT : T.Nodup) (x : String) :
    T.countP (fun s => s == x) = if x ∈ T then 1 else 0 := by
  show List.count x T = _
  by_cases h : x ∈ T
  · rw [if_pos h]
    exact List.count_eq_one_of_mem hT h
  · rw [if_neg h]
    exact List.count_eq_zero_of_not_mem h

/-- A `beq`-any over well-shaped entries is a `beq`-any over their titles. -/
lemma entries_any_eq (entries : List GuidelineResult) (x : String) :
    (entries.any fun r => r.title == x) =
      ((entries.map GuidelineResult.title).any fun s => s == x) := by
  induction entries with
  | nil => rfl
  | cons e rest ih => simp only [List.map_cons, List.any_cons, ih]

/-- The title set read back from well-shaped entries matches a string just
when some entry's title is that string. -/
lemma ts_any_eq (entries : List GuidelineResult) (x : String) :
    ((entries.map fun r => some (JVal.str r.title)).any fun tl => titleMatches tl x) =
      (entries.any fun r => r.title == x) := by
  induction entries with
  | nil => rfl
  | cons e rest ih =>
    simp only [List.map_cons, List.any_cons, ih]
    rfl

/-- Counting title matches among well-shaped entries counts their titles. -/
lemma countP_titleOf_map_toJVal (entries : List GuidelineResult) (x : String) :
    (entries.map GuidelineResult.toJVal).countP (fun r => titleOf r == some x) =
      (entries.map GuidelineResult.title).countP (fun s => s == x) := by
  induction entries with
  | nil => rfl
  | cons e rest ih =>
    simp only [List.map_cons, List.countP_cons, ih]
    rfl

/-- Counting title matches among synthesized entries counts the guideline
titles. -/
lemma countP_titleOf_map_mk (l : List Guideline) (x m : String) :
    (l.map (fun g => mkGuidelineResult g.title 5 m)).countP
        (fun r => titleOf r == some x) =
      (l.map Guideline.title).countP (fun s => s == x) := by
  induction l with
  | nil => rfl
  | cons g rest ih =>
    simp only [List.map_cons, List.countP_cons, ih]
    rfl

end Helpers

/-- C1 counterexample: when the underlying model call itself rejects,
`InstructionComplianceMetric.measure` does not resolve to a `ScoreResult`;
the rejection propagates to the caller (`doGenerate` is invoked outside the
`try` block). -/
theorem C1_cex_measure_throws_on_model_failure :
    measureI (.raise "model call failed") = .error "model call failed" := rfl

/-- C1 (amended): `InstructionComplianceMetric.measure` never throws once
the underlying model call resolves — empty text and malformed JSON both take
the caught fallback path and yield a `ScoreResult` (score 0 there) — but a
rejection of the model call itself propagates unchanged to the caller. -/
theorem C1_measure_total_once_call_resolves (t : Option String) (p : Except String JVal) :
    (∃ r : ScoreResult, measureI (.resolve t p) = .ok r) ∧
    (∀ msg, measureI (.raise msg) = .error msg) := by
  refine ⟨?_, fun msg => rfl⟩
  cases p with
  | error e => exact ⟨⟨.fin 0, [], some (t.getD ""), some e⟩, rfl⟩
  | ok v =>
    cases h : checkSingle v with
    | error e =>
      exact ⟨⟨.fin 0, [], some (t.getD ""), some e⟩, by simp [measureI, h]⟩
    | ok qr =>
      exact ⟨⟨.fin (qr.1 / 10), qr.2, none, none⟩, by simp [measureI, h]⟩

/-- C9: in `evaluateFile`, a row whose metric call throws is caught and
contributes no element at all to the `(column, guideline)` score collection —
the collection is the same as if the row were absent, and in particular no
zero is recorded; the failure is not re-raised (the collection is a total
function of the row outcomes). -/
theorem C9_failed_rows_excluded (pre post : List ModelOutcome) (msg : String) :
    collectScores (pre ++ ModelOutcome.raise msg :: post) = collectScores (pre ++ post) ∧
    evalRow (ModelOutcome.raise msg) = none := by
  constructor
  · simp [collectScores, List.filterMap_append, List.filterMap_cons, evalRow, measureI]
  · rfl

/-- C8: `evaluateFile` aggregates each non-empty score collection with
`average = sum / count` and the population standard deviation
`stddev = sqrt(sum((s - average)^2) / count)`; on the textbook example
`[2,4,4,4,5,5,7,9]` this gives average exactly 5 and stddev exactly 2; and
on an empty collection both `average` and `stddev` are `NaN` (`none`),
never `0`. -/
theorem C8_population_stats :
    (∀ s : List ℚ, s ≠ [] →
      averageOf s = some (s.sum / (s.length : ℚ)) ∧
      varianceOf s =
        some ((s.map (fun x => (x - s.sum / (s.length : ℚ)) ^ 2)).sum / (s.length : ℚ)) ∧
      stddevOf s =
        some (Real.sqrt
          (((s.map (fun x => (x - s.sum / (s.length : ℚ)) ^ 2)).sum / (s.length : ℚ) : ℚ)))) ∧
    averageOf [2, 4, 4, 4, 5, 5, 7, 9] = some 5 ∧
    stddevOf [2, 4, 4, 4, 5, 5, 7, 9] = some 2 ∧
    averageOf [] = none ∧ varianceOf [] = none ∧ stddevOf [] = none := by
  have havg : ∀ s : List ℚ, s ≠ [] → averageOf s = some (s.sum / (s.length : ℚ)) := by
    intro s hs
    have hlen : 0 < s.length := List.length_pos.2 hs
    simp only [averageOf, if_pos hlen]
    have h := foldl_add_map (fun b => b) s 0
    simp only [List.map_id'] at h
    rw [h, zero_add]
  have hvar : ∀ s : List ℚ, s ≠ [] →
      varianceOf s =
        some ((s.map (fun x => (x - s.sum / (s.length : ℚ)) ^ 2)).sum / (s.length : ℚ)) := by
    intro s hs
    simp only [varianceOf, havg s hs]
    rw [foldl_add_map (fun b => (b - s.sum / (s.length : ℚ)) ^ 2) s 0, zero_add]
  have hstd : ∀ s : List ℚ, s ≠ [] →
      stddevOf s =
        some (Real.sqrt
          (((s.map (fun x => (x - s.sum / (s.length : ℚ)) ^ 2)).sum / (s.length : ℚ) : ℚ))) := by
    intro s hs
    rw [stddevOf, hvar s hs, Option.map_some']
  refine ⟨fun s hs => ⟨havg s hs, hvar s hs, hstd s hs⟩, ?_, ?_, rfl, rfl, rfl⟩
  · rw [havg [2, 4, 4, 4, 5, 5, 7, 9] (by simp)]
    norm_num
  · have h4 : varianceOf [2, 4, 4, 4, 5, 5, 7, 9] = some 4 := by
      rw [hvar [2, 4, 4, 4, 5, 5, 7, 9] (by simp)]
      norm_num
    rw [stddevOf, h4, Option.map_some']
    have hc : (((4 : ℚ)) : ℝ) = 4 := by norm_num
    rw [hc, show (4 : ℝ) = 2 ^ 2 by norm_num, Real.sqrt_sq (by norm_num)]

/-- C8 witness: the aggregation formulas evaluated at the one-element
collection `[3]`. -/
theorem C8_population_stats_witness :
    averageOf [3] = some (([3] : List ℚ).sum / (([3] : List ℚ).length : ℚ)) :=
  (C8_population_stats.1 [3] (by simp)).1

/-- C2: `GuidelinesComplianceMetric.measureAll` resolves on every path (it is
a total function in this embedding) and applies the failure policy: a
rejecting model call, a falsy (absent or empty) response text, an
unparseable response, and a missing / non-array / empty `results` field each
yield score 5 for every requested guideline, with the corresponding tagging
reason. -/
theorem C2_measureAll_failure_policy (gs : List Guideline) (msg t e : String)
    (p : Except String JVal) (v w : JVal) :
    (measureAll gs (.raise msg) =
      ⟨.nan, gs.map (fun g => mkGuidelineResult g.title 5
        ("LLM call failed: " ++ (if msg = "" then "Unknown error" else msg)))⟩) ∧
    (measureAll gs (.resolve none p) =
      ⟨.nan, gs.map (fun g => mkGuidelineResult g.title 5 "LLM returned empty response")⟩) ∧
    (measureAll gs (.resolve (some "") p) =
      ⟨.nan, gs.map (fun g => mkGuidelineResult g.title 5 "LLM returned empty response")⟩) ∧
    (t ≠ "" → measureAll gs (.resolve (some t) (.error e)) =
      ⟨.nan, gs.map (fun g => mkGuidelineResult g.title 5 "Failed to parse LLM response")⟩) ∧
    (t ≠ "" → getField v "results" = .ok none →
      measureAll gs (.resolve (some t) (.ok v)) =
        ⟨.nan, gs.map (fun g => mkGuidelineResult g.title 5 "Parsed response had empty results")⟩) ∧
    (t ≠ "" → (∀ xs, w ≠ .arr xs) → getField v "results" = .ok (some w) →
      measureAll gs (.resolve (some t) (.ok v)) =
        ⟨.nan, gs.map (fun g => mkGuidelineResult g.title 5 "Parsed response had empty results")⟩) ∧
    (t ≠ "" → getField v "results" = .ok (some (.arr [])) →
      measureAll gs (.resolve (some t) (.ok v)) =
        ⟨.nan, gs.map (fun g => mkGuidelineResult g.title 5 "Parsed response had empty results")⟩) := by
  refine ⟨rfl, rfl, rfl, ?_, ?_, ?_, ?_⟩
  · intro ht
    unfold measureAll
    simp [ht, fallbackResults]
  · intro ht hf
    unfold measureAll
    simp only [Option.getD_some, if_neg ht, hf]
    rfl
  · intro ht hw hf
    unfold measureAll
    simp only [Option.getD_some, if_neg ht]
    rw [show (do
        let rsField ← getField v "results"
        match rsField with
        | some (.arr rs) =>
          if rs.isEmpty then
            pure (fallbackResults gs "Parsed response had empty results")
          else if rs.length < gs.length then
            reconcile gs rs
          else
            pure rs
        | _ => pure (fallbackResults gs "Parsed response had empty results")
        : Except String (List JVal)) =
      .ok (fallbackResults gs "Parsed response had empty results") from ?_]
    · rfl
    · rw [hf]
      cases w with
      | arr xs => exact absurd rfl (hw xs)
      | null => rfl
      | bool b => rfl
      | num n => rfl
      | str s => rfl
      | obj fs => rfl
  · intro ht hf
    unfold measureAll
    simp only [Option.getD_some, if_neg ht, hf]
    rfl

/-- C2 witness. -/
theorem C2_measureAll_failure_policy_witness :
    measureAll [⟨"A", "iA"⟩] (.resolve (some "nonsense") (.error "SyntaxError")) =
      ⟨.nan, [mkGuidelineResult "A" 5 "Failed to parse LLM response"]⟩ := by
  have h := (C2_measureAll_failure_policy [⟨"A", "iA"⟩] "m" "nonsense" "SyntaxError"
    (.error "SyntaxError") (.obj []) (.str "w")).2.2.2.1 (by simp)
  simpa using h

/-- C7: when the response parses and its `results` array covers all
requested guidelines (`results.length >= guidelines.length`), `measureAll`
passes the parsed results through verbatim — per-guideline scores stay on
the 0-10 scale, nothing is rescaled — and the outer `score` of the returned
`MetricResult` is `NaN`, as it is on every path of `measureAll`. -/
theorem C7_verbatim_passthrough_and_nan_score (gs : List Guideline) (o : ModelOutcome)
    (t : String) (v : JVal) (rs : List JVal)
    (ht : t ≠ "") (hf : getField v "results" = .ok (some (.arr rs)))
    (hlen : gs.length ≤ rs.length) :
    measureAll gs (.resolve (some t) (.ok v)) = ⟨.nan, rs⟩ ∧
    (measureAll gs o).score = .nan :=
  ⟨measureAll_verbatim gs t v rs ht hf hlen, measureAll_score_nan gs o⟩

/-- C7 witness: a two-guideline request answered by a two-entry response is
returned verbatim. -/
theorem C7_verbatim_passthrough_witness :
    measureAll [⟨"A", "iA"⟩, ⟨"B", "iB"⟩] (.resolve (some "resp")
      (.ok (.obj [("results",
        .arr [mkGuidelineResult "B" 9 "good", mkGuidelineResult "A" 2 "bad"])]))) =
      ⟨.nan, [mkGuidelineResult "B" 9 "good", mkGuidelineResult "A" 2 "bad"]⟩ :=
  (C7_verbatim_passthrough_and_nan_score [⟨"A", "iA"⟩, ⟨"B", "iB"⟩] (.raise "x") "resp"
    (.obj [("results", .arr [mkGuidelineResult "B" 9 "good", mkGuidelineResult "A" 2 "bad"])])
    [mkGuidelineResult "B" 9 "good", mkGuidelineResult "A" 2 "bad"]
    (by simp) rfl (by simp)).1

/-- C10 (implicit): on every failure path of the underlying call — the model
call raising, an empty model response, or an unparseable response —
`GuidelinesComplianceMetric.measure` returns score `0.5` (the per-guideline
fallback score 5 rescaled by `/10`), never `0`; the only indication that
scoring failed is the diagnostic string inside `info.reasons`. -/
theorem C10_wrapper_fallback_half (instr msg t e : String) (p : Except String JVal)
    (ht : t ≠ "") :
    measureG instr (.raise msg) =
      .ok ⟨.fin (1 / 2), some (.arr [.str
        ("LLM call failed: " ++ (if msg = "" then "Unknown error" else msg))])⟩ ∧
    measureG instr (.resolve none p) =
      .ok ⟨.fin (1 / 2), some (.arr [.str "LLM returned empty response"])⟩ ∧
    measureG instr (.resolve (some "") p) =
      .ok ⟨.fin (1 / 2), some (.arr [.str "LLM returned empty response"])⟩ ∧
    measureG instr (.resolve (some t) (.error e)) =
      .ok ⟨.fin (1 / 2), some (.arr [.str "Failed to parse LLM response"])⟩ ∧
    (1 : ℚ) / 2 ≠ 0 := by
  have h510 : (5 : ℚ) / 10 = 1 / 2 := by norm_num
  refine ⟨?_, ?_, ?_, ?_, by norm_num⟩
  · have h : measureG instr (.raise msg) =
        .ok ⟨.fin (5 / 10), some (.arr [.str
          ("LLM call failed: " ++ (if msg = "" then "Unknown error" else msg))])⟩ := rfl
    rw [h, h510]
  · have h : measureG instr (.resolve none p) =
        .ok ⟨.fin (5 / 10), some (.arr [.str "LLM returned empty response"])⟩ := rfl
    rw [h, h510]
  · have h : measureG instr (.resolve (some "") p) =
        .ok ⟨.fin (5 / 10), some (.arr [.str "LLM returned empty response"])⟩ := rfl
    rw [h, h510]
  · have hAll : measureAll [⟨instr, instr⟩] (.resolve (some t) (.error e)) =
        ⟨.nan, fallbackResults [⟨instr, instr⟩] "Failed to parse LLM response"⟩ := by
      unfold measureAll
      simp [ht]
    unfold measureG
    rw [hAll]
    show Except.ok (⟨.fin ((5 : ℚ) / 10),
        some (.arr [.str "Failed to parse LLM response"])⟩ : SingleFromMulti) =
      .ok ⟨.fin (1 / 2), some (.arr [.str "Failed to parse LLM response"])⟩
    rw [h510]

/-- C10 witness. -/
theorem C10_wrapper_fallback_half_witness :
    measureG "be polite" (.resolve (some "not json") (.error "SyntaxError")) =
      .ok ⟨.fin (1 / 2), some (.arr [.str "Failed to parse LLM response"])⟩ :=
  (C10_wrapper_fallback_half "be polite" "m" "not json" "SyntaxError"
    (.error "SyntaxError") (by simp)).2.2.2.1

/-- The precondition of the single-instruction success path, phrased on the
parsed value: the `score` field is a finite number in `[0, 10]` and the
`reasons` field an array of strings (`false` exactly when the claim's
"violation" condition holds). -/
def validSingle (v : JVal) : Bool :=
  match getField v "score", getField v "reasons" with
  | .ok (some (.num (.fin q))), .ok (some (.arr xs)) =>
    decide (0 ≤ q) && decide (q ≤ 10) && xs.all isStrVal
  | _, _ => false

/-- A successful schema check implies the validity predicate. -/
lemma validSingle_of_checkSingle_ok {v : JVal} {pr : ℚ × List String}
    (hc : checkSingle v = .ok pr) : validSingle v = true := by
  unfold checkSingle at hc
  cases hsc : getField v "score" with
  | error e => rw [hsc] at hc; simp at hc
  | ok sc =>
    rw [hsc] at hc
    cases sc with
    | none => simp at hc
    | some w =>
      cases w with
      | num n =>
        dsimp only at hc
        by_cases hcond : (n.ltb (.fin 0) || (JNum.fin 10).ltb n) = true
        · rw [if_pos hcond] at hc; simp at hc
        · rw [if_neg hcond] at hc
          cases n with
          | fin q =>
            cases hr : getField v "reasons" with
            | error e => rw [hr] at hc; simp at hc
            | ok rr =>
              rw [hr] at hc
              cases rr with
              | none => simp at hc
              | some u =>
                cases u with
                | arr xs =>
                  dsimp only at hc
                  by_cases hall : xs.all isStrVal = true
                  · have hb : ¬ q < 0 ∧ ¬ (10 : ℚ) < q := by
                      simpa [JNum.ltb, not_or] using hcond
                    unfold validSingle
                    rw [hsc, hr]
                    simp [hall, not_lt.1 hb.1, not_lt.1 hb.2]
                  · rw [if_neg hall] at hc; simp at hc
                | null => simp at hc
                | bool b => simp at hc
                | num m => simp at hc
                | str s => simp at hc
                | obj fs => simp at hc
          | inf => simp at hc
          | negInf => simp at hc
      | null => simp at hc
      | bool b => simp at hc
      | str s => simp at hc
      | arr xs => simp at hc
      | obj fs => simp at hc

/-- C5: on the single-instruction path, any parsed response whose `score`
field is not a finite number in `[0, 10]` (infinite values included; a `NaN`
score is not producible by `JSON.parse` at all), or whose `reasons` field is
not an array of strings, makes `InstructionComplianceMetric.measure` return
the fallback outcome: score 0 with diagnostic info carrying the raw response
text and an error message. -/
theorem C5_invalid_single_falls_back (t : String) (v : JVal)
    (h : validSingle v = false) :
    ∃ e, measureI (.resolve (some t) (.ok v)) = .ok ⟨.fin 0, [], some t, some e⟩ := by
  have hcs : ∃ e, checkSingle v = .error e := by
    cases hc : checkSingle v with
    | error e => exact ⟨e, rfl⟩
    | ok pr => rw [validSingle_of_checkSingle_ok hc] at h; simp at h
  obtain ⟨e, he⟩ := hcs
  exact ⟨e, by simp [measureI, he]⟩

/-- C5 witness: a response whose `score` is a string. -/
theorem C5_invalid_single_falls_back_witness :
    ∃ e, measureI (.resolve (some "raw text")
      (.ok (.obj [("score", .str "high"), ("reasons", .arr [])]))) =
      .ok ⟨.fin 0, [], some "raw text", some e⟩ :=
  C5_invalid_single_falls_back "raw text"
    (.obj [("score", .str "high"), ("reasons", .arr [])]) rfl

/-- C6: for any parsed single-instruction response passing validation — a
finite `score` `q ∈ [0, 10]` and `reasons` an array of strings —
`InstructionComplianceMetric.measure` returns exactly `q / 10`, with the
validated reasons, and that returned score lies in `[0, 1]`. -/
theorem C6_normalization_law (t : String) (v : JVal) (q : ℚ) (xs : List JVal)
    (hs : getField v "score" = .ok (some (.num (.fin q))))
    (h0 : 0 ≤ q) (h10 : q ≤ 10)
    (hr : getField v "reasons" = .ok (some (.arr xs)))
    (hstr : xs.all isStrVal = true) :
    measureI (.resolve (some t) (.ok v)) = .ok ⟨.fin (q / 10), xs.map strOf, none, none⟩ ∧
    0 ≤ q / 10 ∧ q / 10 ≤ 1 := by
  have hcond : (JNum.ltb (.fin q) (.fin 0) || (JNum.fin 10).ltb (.fin q)) = false := by
    simp [JNum.ltb, not_lt.2 h0, not_lt.2 h10]
  have hc : checkSingle v = .ok (q, xs.map strOf) := by
    unfold checkSingle
    rw [hs, hr]
    simp [hcond, hstr]
  refine ⟨by simp [measureI, hc], ?_, ?_⟩
  · positivity
  · rw [div_le_one (by norm_num)]
    linarith

/-- C6 witness: score 7 with one string reason normalizes to 0.7. -/
theorem C6_normalization_law_witness :
    measureI (.resolve (some "resp")
        (.ok (.obj [("score", .num (.fin 7)), ("reasons", .arr [.str "ok"])]))) =
      .ok ⟨.fin (7 / 10), [.str "ok"].map strOf, none, none⟩ ∧
    0 ≤ (7 : ℚ) / 10 ∧ (7 : ℚ) / 10 ≤ 1 :=
  C6_normalization_law "resp" (.obj [("score", .num (.fin 7)), ("reasons", .arr [.str "ok"])])
    7 [.str "ok"] rfl (by norm_num) (by norm_num) rfl rfl

/-- C3: for a guideline list of length `n` (titles unique, per the data
model) and a parsed response whose `results` array holds `k` well-shaped
entries, `1 ≤ k ≤ n`, with distinct titles all drawn from the guideline
titles, `measureAll` returns exactly `n` results — the `k` model entries
verbatim followed by `n - k` synthesized score-5 entries — and every
requested guideline title appears exactly once. -/
theorem C3_reconciliation_completeness
    (gs : List Guideline) (entries : List GuidelineResult) (t : String)
    (ht : t ≠ "")
    (hgnd : (gs.map Guideline.title).Nodup)
    (hk1 : 1 ≤ entries.length)
    (hkn : entries.length ≤ gs.length)
    (hend : (entries.map GuidelineResult.title).Nodup)
    (hsub : ∀ r ∈ entries, r.title ∈ gs.map Guideline.title) :
    (measureAll gs (.resolve (some t)
        (.ok (.obj [("results", .arr (entries.map GuidelineResult.toJVal))])))).results =
      entries.map GuidelineResult.toJVal ++
        (gs.filter (fun g => !(entries.any (fun r => r.title == g.title)))).map
          (fun g => mkGuidelineResult g.title 5
            "This guideline was missing from LLM response") ∧
    (measureAll gs (.resolve (some t)
        (.ok (.obj [("results", .arr (entries.map GuidelineResult.toJVal))])))).results.length =
      gs.length ∧
    ∀ g ∈ gs,
      (measureAll gs (.resolve (some t)
          (.ok (.obj [("results", .arr (entries.map GuidelineResult.toJVal))])))).results.countP
        (fun r => titleOf r == some g.title) = 1 := by
  have hfeq : getField
      (.obj [("results", .arr (entries.map GuidelineResult.toJVal))]) "results" =
      .ok (some (.arr (entries.map GuidelineResult.toJVal))) := rfl
  have hpred : (fun g : Guideline =>
      !((entries.map fun r => some (JVal.str r.title)).any
        (fun x => titleMatches x g.title))) =
      (fun g : Guideline => !(entries.any (fun r => r.title == g.title))) := by
    funext g
    rw [ts_any_eq]
  -- the reconciled/verbatim output, uniformly
  have heq : (measureAll gs (.resolve (some t)
      (.ok (.obj [("results", .arr (entries.map GuidelineResult.toJVal))])))).results =
      entries.map GuidelineResult.toJVal ++
        (gs.filter (fun g => !(entries.any (fun r => r.title == g.title)))).map
          (fun g => mkGuidelineResult g.title 5
            "This guideline was missing from LLM response") := by
    by_cases hlt : (entries.map GuidelineResult.toJVal).length < gs.length
    · have hne : entries.map GuidelineResult.toJVal ≠ [] := by
        cases entries with
        | nil => simp at hk1
        | cons a l => simp
      have h := measureAll_reconciled gs t _ (entries.map GuidelineResult.toJVal)
        (entries.map fun r => some (JVal.str r.title)) ht hfeq hne hlt
        (mapM_elemTitle_shaped entries)
      rw [h]
      rw [hpred]
    · have hge : gs.length ≤ (entries.map GuidelineResult.toJVal).length := not_lt.1 hlt
      have h := measureAll_verbatim gs t _ (entries.map GuidelineResult.toJVal) ht hfeq hge
      rw [h]
      -- here k = n, so no guideline title is missing and the filter is empty
      have hklen : entries.length = gs.length := by
        rw [List.length_map] at hge
        omega
      have hperm : List.Perm (entries.map GuidelineResult.title) (gs.map Guideline.title) := by
        have hsubl : entries.map GuidelineResult.title ⊆ gs.map Guideline.title := by
          intro s hs
          obtain ⟨r, hr, hrs⟩ := List.mem_map.1 hs
          exact hrs ▸ hsub r hr
        refine (hend.subperm hsubl).perm_of_length_le ?_
        simp [hklen]
      have hfilter : gs.filter (fun g => !(entries.any (fun r => r.title == g.title))) = [] := by
        rw [List.filter_eq_nil_iff]
        intro g hg
        have hmemT : g.title ∈ gs.map Guideline.title := List.mem_map_of_mem Guideline.title hg
        have hmemS : g.title ∈ entries.map GuidelineResult.title := (hperm.mem_iff).2 hmemT
        obtain ⟨r, hr, hrt⟩ := List.mem_map.1 hmemS
        simp only [Bool.not_eq_true', Bool.not_eq_false, List.any_eq_true]
        exact ⟨r, hr, by simp [hrt]⟩
      rw [hfilter]
      simp
  refine ⟨heq, ?_, ?_⟩
  · rw [heq, List.length_append, List.length_map, List.length_map]
    have hflen : (gs.filter
        (fun g => !(entries.any (fun r => r.title == g.title)))).length =
        gs.length - entries.length := by
      have hfun : (fun g : Guideline => !(entries.any (fun r => r.title == g.title))) =
          (fun g : Guideline =>
            !((entries.map GuidelineResult.title).any (fun s => s == g.title))) := by
        funext g
        rw [entries_any_eq]
      rw [hfun, missing_filter_length gs (entries.map GuidelineResult.title) hgnd hend
        (by
          intro s hs
          obtain ⟨r, hr, hrs⟩ := List.mem_map.1 hs
          exact hrs ▸ hsub r hr), List.length_map]
    rw [hflen]
    omega
  · intro g hg
    rw [heq, List.countP_append, countP_titleOf_map_toJVal, countP_titleOf_map_mk,
      count_title_nodup (entries.map GuidelineResult.title) hend g.title]
    have hfnodup : ((gs.filter
        (fun g' => !(entries.any (fun r => r.title == g'.title)))).map Guideline.title).Nodup :=
      ((List.filter_sublist gs).map Guideline.title).nodup hgnd
    rw [count_title_nodup _ hfnodup g.title]
    by_cases hmem : g.title ∈ entries.map GuidelineResult.title
    · rw [if_pos hmem, if_neg ?_]
      · intro hmemF
        obtain ⟨g', hg', hgt⟩ := List.mem_map.1 hmemF
        have hpredg' := List.of_mem_filter hg'
        simp only [Bool.not_eq_true', List.any_eq_false] at hpredg'
        obtain ⟨r, hr, hrt⟩ := List.mem_map.1 hmem
        exact absurd (by simp [hgt ▸ hrt.symm] : (r.title == g'.title) = true)
          (by simpa using hpredg' r hr)
    · rw [if_neg hmem, if_pos ?_]
      · have hpredg : (!(entries.any (fun r => r.title == g.title))) = true := by
          simp only [Bool.not_eq_true', List.any_eq_false, beq_eq_false_iff_ne]
          intro r hr hrt
          have hrt' : r.title = g.title := by simpa using hrt
          exact hmem (hrt' ▸ List.mem_map_of_mem GuidelineResult.title hr)
        exact List.mem_map_of_mem Guideline.title (List.mem_filter.2 ⟨hg, hpredg⟩)

/-- C3 witness: two guidelines, one returned entry; the missing guideline is
appended with score 5 and each title occurs once. -/
theorem C3_reconciliation_completeness_witness :
    (measureAll [⟨"A", "iA"⟩, ⟨"B", "iB"⟩] (.resolve (some "resp")
        (.ok (.obj [("results",
          .arr (List.map GuidelineResult.toJVal [⟨"A", 3, ["r"]⟩]))])))).results.length = 2 :=
  (C3_reconciliation_completeness [⟨"A", "iA"⟩, ⟨"B", "iB"⟩] [⟨"A", 3, ["r"]⟩] "resp"
    (by simp) (by simp) (by simp) (by simp) (by simp)
    (by intro r hr; simp at hr; simp [hr])).2.1

/-- C4 counterexample: one guideline titled `A`; the parsed response has a
single entry with the foreign title `X`.  Since `results.length`
(1) is not smaller than `guidelines.length` (1), the reconciliation block
never runs: the entry passes through verbatim and no entry for the requested
title `A` exists in `info.results` — contradicting the claim that every
requested guideline title absent from the model's results is synthesized. -/
theorem C4_cex_no_synthesis_when_k_equals_n :
    (measureAll [⟨"A", "iA"⟩] (.resolve (some "resp")
        (.ok (.obj [("results", .arr [mkGuidelineResult "X" 3 "off"])])))).results =
      [mkGuidelineResult "X" 3 "off"] ∧
    (measureAll [⟨"A", "iA"⟩] (.resolve (some "resp")
        (.ok (.obj [("results", .arr [mkGuidelineResult "X" 3 "off"])])))).results.countP
      (fun r => titleOf r == some "A") = 0 :=
  ⟨rfl, rfl⟩

/-- C4 (amended): synthesis happens only when the model returns strictly
fewer results than requested guidelines; in that case each requested
guideline whose title is absent from the returned titles is appended at the
end, in guideline order, with neutral score 5 and a tagging reason.  When
`results.length >= guidelines.length` the parsed results are returned
verbatim, even if requested titles are absent from them. -/
theorem C4_amended_synthesis_only_when_fewer
    (gs : List Guideline) (t : String) (v : JVal) (rs : List JVal)
    (ts : List (Option JVal))
    (ht : t ≠ "") (hf : getField v "results" = .ok (some (.arr rs))) (hne : rs ≠ []) :
    (rs.length < gs.length → rs.mapM elemTitle = .ok ts →
      (measureAll gs (.resolve (some t) (.ok v))).results =
        rs ++ (gs.filter (fun g => !(ts.any (fun x => titleMatches x g.title)))).map
          (fun g => mkGuidelineResult g.title 5
            "This guideline was missing from LLM response")) ∧
    (gs.length ≤ rs.length →
      (measureAll gs (.resolve (some t) (.ok v))).results = rs) := by
  constructor
  · intro hlt hts
    rw [measureAll_reconciled gs t v rs ts ht hf hne hlt hts]
  · intro hge
    rw [measureAll_verbatim gs t v rs ht hf hge]

/-- C4 witness: two guidelines `A`, `B`; one returned entry with foreign
title `X`; both requested guidelines are synthesized and appended. -/
theorem C4_amended_synthesis_only_when_fewer_witness :
    (measureAll [⟨"A", "iA"⟩, ⟨"B", "iB"⟩] (.resolve (some "resp")
        (.ok (.obj [("results", .arr [mkGuidelineResult "X" 2 "r"])])))).results =
      [mkGuidelineResult "X" 2 "r",
       mkGuidelineResult "A" 5 "This guideline was missing from LLM response",
       mkGuidelineResult "B" 5 "This guideline was missing from LLM response"] := by
  have h := (C4_amended_synthesis_only_when_fewer [⟨"A", "iA"⟩, ⟨"B", "iB"⟩] "resp"
    (.obj [("results", .arr [mkGuidelineResult "X" 2 "r"])])
    [mkGuidelineResult "X" 2 "r"] [some (.str "X")] (by simp) rfl (by simp)).1
    (by simp) rfl
  exact h.trans rfl

end Mastra
